import Mathlib

/-!
Shallow embedding of the django-fmft library (`fmft/formset_tables.py` and the
caching mixin in `fmft/views.py`).

Modelling conventions:
* A Django model instance is identified by its Python object identity; we model
  object identity with the inductive type `Instance` (`rec i` for a record of the
  backing queryset, `blank j` for the fresh blank instance that Django creates
  for the j-th extra form of a formset).
* A queryset is a list of instances (already filtered/sorted upstream).
* A model formset class (as produced by `modelformset_factory`) is a
  `FormsetClass`: the form's field names, which of them are visible, whether
  deletion is enabled, the number of extra forms, and the model's default
  manager queryset (used by Django when a formset is instantiated with
  `queryset=None`).  Instantiating it over a queryset yields a `Formset` whose
  forms are one initial form per record followed by the extra blank forms.
* A django-tables2 column is a `Column`: either a plain column or a
  `FormFieldsColumn` carrying its `forms` accessor and `form_fields` tuple; the
  configuration attributes that `FormFieldsColumn.from_column` copies are
  gathered in `ColumnConfig`.
* A table class is its ordered `base_columns` dict; a table instance carries its
  (mutable in Python, threaded here) columns, pinned rows, underlying data and
  optional page.  The attribute chains `table.data.data` and
  `table.page.object_list.data` are modelled with `Option` at every step so that
  a missing attribute (an `AttributeError` in Python) is representable.
* Python ordered dicts are association lists with `alUpdate` (replace in place
  or append) semantics; Python exceptions are the `Except PyErr` monad.
-/

namespace Fmft

/-- Python object identity for model instances: a record of the database
queryset, or the fresh blank instance backing the j-th extra form. -/
inductive Instance where
  | record (id : Nat)
  | blank (j : Nat)
deriving DecidableEq, Repr

/-- An ordered-dict lookup: value of the first pair whose key matches. -/
def alGet {κ α : Type} [DecidableEq κ] (d : List (κ × α)) (k : κ) : Option α :=
  (d.find? (fun p => p.1 == k)).map Prod.snd

/-- Python `k in d` for an ordered dict. -/
def alContains {κ α : Type} [DecidableEq κ] (d : List (κ × α)) (k : κ) : Bool :=
  d.any (fun p => p.1 == k)

/-- Python ordered-dict assignment `d[k] = v`: replace in place if the key is
present, append otherwise. -/
def alUpdate {κ α : Type} [DecidableEq κ] (d : List (κ × α)) (k : κ) (v : α) :
    List (κ × α) :=
  if d.any (fun p => p.1 == k) then
    d.map (fun p => if p.1 == k then (k, v) else p)
  else
    d ++ [(k, v)]

/-- Python `d.update(kvs)`: assign every pair in order. -/
def dictUpdate {κ α : Type} [DecidableEq κ] (d : List (κ × α))
    (kvs : List (κ × α)) : List (κ × α) :=
  kvs.foldl (fun acc kv => alUpdate acc kv.1 kv.2) d

/-- Python `dict(kvs)`: build an ordered dict from a pair list (first
occurrence fixes the position, last occurrence fixes the value). -/
def dictOf {κ α : Type} [DecidableEq κ] (kvs : List (κ × α)) : List (κ × α) :=
  dictUpdate [] kvs

/-- Python exceptions that the embedded code can raise. -/
inductive PyErr where
  | attributeError
  | indexError
  | keyError (msg : String)
deriving DecidableEq, Repr

/-- Python attribute access on a possibly missing attribute. -/
def getattrEx {α : Type} : Option α → Except PyErr α
  | some a => Except.ok a
  | none => Except.error PyErr.attributeError

/-- Django's deletion field name, `django.forms.formsets.DELETION_FIELD_NAME`. -/
def DELETION_FIELD_NAME : String := "DELETE"

/-- A model form: in this embedding a form is identified by the model instance
it is bound to (its field structure is shared formset-wide and lives on the
`FormsetClass`). -/
structure Form where
  inst : Instance
deriving DecidableEq, Repr

/-- A model formset class produced by `modelformset_factory`: the per-form
field metadata, deletion flag, number of extra forms, and the model's default
manager queryset (used when instantiated with `queryset=None`). -/
structure FormsetClass where
  field_names : List String
  visible_names : List String
  can_delete : Bool
  extra : Nat
  default_queryset : List Instance
deriving DecidableEq, Repr

/-- Names of all fields of each form of the formset; when `can_delete` is set
Django appends the `DELETE` `BooleanField` to every form. -/
def FormsetClass.form_field_names (fc : FormsetClass) : List String :=
  fc.field_names ++ (if fc.can_delete then [DELETION_FIELD_NAME] else [])

/-- Names of the visible fields of each form (the `DELETE` checkbox is
visible). -/
def FormsetClass.form_visible_names (fc : FormsetClass) : List String :=
  fc.visible_names ++ (if fc.can_delete then [DELETION_FIELD_NAME] else [])

/-- Names of the hidden fields of each form: all fields minus the visible
ones (the Python source computes this with a set difference). -/
def FormsetClass.form_hidden_names (fc : FormsetClass) : List String :=
  fc.form_field_names.filter (fun n => ¬ (fc.form_visible_names.contains n))

/-- An instantiated model formset: its class and the queryset it was built
over. -/
structure Formset where
  fclass : FormsetClass
  queryset : List Instance
deriving DecidableEq, Repr

/-- Embeds `formset_class(**formset_kwargs)`: Django's `BaseModelFormSet` uses the
given queryset, falling back to the model's default manager when the
`queryset` kwarg is `None`. -/
def FormsetClass.instantiate (fc : FormsetClass) (queryset : Option (List Instance)) :
    Formset :=
  { fclass := fc, queryset := queryset.getD fc.default_queryset }

/-- The forms of an unbound model formset: one initial form per queryset
record, then `extra` blank forms over fresh instances. -/
def Formset.forms (fs : Formset) : List Form :=
  fs.queryset.map (fun r => { inst := r })
    ++ (List.range fs.fclass.extra).map (fun j => { inst := Instance.blank j })

/-- Embeds `formset.extra_forms`: the forms past the initial ones. -/
def Formset.extra_forms (fs : Formset) : List Form :=
  fs.forms.drop fs.queryset.length

/-- Embeds `FormAccessor`: a simple API for accessing the forms and fields of a model
formset, indexed by the form's instance. -/
structure FormAccessor where
  formset : Formset
deriving DecidableEq, Repr

/-- Embeds `FormAccessor.form_map`: dictionary mapping `id(form.instance)` to the
related form. -/
def FormAccessor.form_map (fa : FormAccessor) : List (Instance × Form) :=
  dictOf (fa.formset.forms.map (fun f => (f.inst, f)))

/-- Embeds `FormAccessor.fields`: names of all form fields (read from the sample
form, which shares its field structure with every form of the formset). -/
def FormAccessor.fields (fa : FormAccessor) : List String :=
  fa.formset.fclass.form_field_names

/-- Embeds `FormAccessor.visible_fields`: names of all visible form fields. -/
def FormAccessor.visible_fields (fa : FormAccessor) : List String :=
  fa.formset.fclass.form_visible_names

/-- Embeds `FormAccessor.hidden_fields`: names of all hidden form fields. -/
def FormAccessor.hidden_fields (fa : FormAccessor) : List String :=
  fa.formset.fclass.form_hidden_names

/-- A key passed to `FormAccessor.__getitem__`: an integer index or a model
instance. -/
inductive FormKey where
  | idx (i : Int)
  | inst (x : Instance)
deriving DecidableEq, Repr

/-- Python list indexing `l[i]` with negative-index support; raises
`IndexError` when out of range. -/
def listIndex {α : Type} (l : List α) (i : Int) : Except PyErr α :=
  if i < 0 then
    if i + l.length < 0 then Except.error PyErr.indexError
    else
      match l.get? (i + l.length).toNat with
      | some a => Except.ok a
      | none => Except.error PyErr.indexError
  else
    match l.get? i.toNat with
    | some a => Except.ok a
    | none => Except.error PyErr.indexError

/-- The message of the `KeyError` re-raised by `FormAccessor.__getitem__`. -/
def form_map_key_error : String :=
  "Formset does not have a form for the given record - probably a buggered pk in form data."

/-- Embeds `FormAccessor.__getitem__`: `formset[i]` for an integer key (an
out-of-range index raises `IndexError`, which passes through the
`except KeyError` handler); for an instance key, a `form_map` lookup whose
bare `KeyError` is caught and re-raised with a descriptive message. -/
def FormAccessor.getitem (fa : FormAccessor) (k : FormKey) : Except PyErr Form :=
  match k with
  | FormKey.idx i => listIndex fa.formset.forms i
  | FormKey.inst x =>
    match alGet fa.form_map x with
    | some f => Except.ok f
    | none => Except.error (PyErr.keyError form_map_key_error)

/-- Embeds `FormAccessor.__len__`: the number of entries of `form_map`. -/
def FormAccessor.len (fa : FormAccessor) : Nat :=
  fa.form_map.length

/-- The configuration attributes of a django-tables2 column that
`FormFieldsColumn.from_column` copies, plus `linkify`. -/
structure ColumnConfig where
  verbose_name : Option String
  accessor : Option String
  default : Option String
  visible : Bool
  orderable : Option Bool
  attrs : List (String × String)
  order_by : Option (List String)
  localize : Option Bool
  footer : Option String
  exclude_from_export : Bool
  linkify : Bool
  initial_sort_descending : Bool
deriving DecidableEq, Repr

/-- A django-tables2 column: a plain column, or a `FormFieldsColumn` carrying
its `forms` accessor and optional `form_fields` tuple. -/
inductive Column where
  | plain (cfg : ColumnConfig)
  | formFields (cfg : ColumnConfig) (forms : FormAccessor)
      (form_fields : Option (List String))
deriving DecidableEq, Repr

/-- The configuration of a column. -/
def Column.cfg : Column → ColumnConfig
  | Column.plain c => c
  | Column.formFields c _ _ => c

/-- Whether a column is a `FormFieldsColumn`. -/
def Column.isFormFieldsColumn : Column → Bool
  | Column.plain _ => false
  | Column.formFields _ _ _ => true

/-- Python `str(accessor)` for a column's accessor slot: an `Accessor` is a
`str` subclass so `str` is the identity on it, but `str(None)` is the literal
string `"None"`. -/
def str_of_accessor : Option String → String
  | none => "None"
  | some s => s

/-- Embeds `FormFieldsColumn.from_column`: a `FormFieldsColumn` configured like
`other` (copying exactly the attributes of `ColumnConfig`), except that
`linkify` is always disabled and the accessor is `str(other.accessor)` - the
original accessor string when one is set, but the truthy string `"None"`
(stored as `Accessor("None")` by the column constructor) when the original
column had no accessor.  The call sites in this module pass no extra kwargs,
so `config.update(**kwargs)` is the identity. -/
def FormFieldsColumn.from_column (forms : FormAccessor) (other : Column)
    (form_fields : Option (List String)) : Column :=
  Column.formFields
    { verbose_name := other.cfg.verbose_name
      accessor := some (str_of_accessor other.cfg.accessor)
      default := other.cfg.default
      visible := other.cfg.visible
      orderable := other.cfg.orderable
      attrs := other.cfg.attrs
      order_by := other.cfg.order_by
      localize := other.cfg.localize
      footer := other.cfg.footer
      exclude_from_export := other.cfg.exclude_from_export
      linkify := false
      initial_sort_descending := other.cfg.initial_sort_descending }
    forms form_fields

/-- The `fields` tuple that `FormFieldsColumn.get_row_context` renders for one
record: the column's own bound name when `form_fields` is `None`, the
`form_fields` tuple otherwise. -/
def FormFieldsColumn.rendered_fields (form_fields : Option (List String))
    (bound_column_name : String) : List String :=
  match form_fields with
  | none => [bound_column_name]
  | some fs => fs

/-- A django-tables2 table class: its name and ordered `base_columns`. -/
structure TableClass where
  name : String
  base_columns : List (String × Column)
deriving DecidableEq, Repr

/-- Embeds `table.data` / `page.object_list`: a table-data wrapper whose `data`
attribute (the underlying record list) may be missing. -/
structure TableData where
  data : Option (List Instance)
deriving DecidableEq, Repr

/-- Embeds `table.page`: a paginator page whose `object_list` attribute may be
missing. -/
structure Page where
  object_list : Option TableData
deriving DecidableEq, Repr

/-- An instantiated table: its columns (copied from the class; Python mutates
them in place, the embedding threads a new value), its optional `page` and
`data` attribute chains, and the pinned rows of `table.rows.pinned_data`. -/
structure Table where
  columns : List (String × Column)
  page : Option Page
  data : Option TableData
  pinned_top : List Instance
  pinned_bottom : List Instance
deriving DecidableEq, Repr

/-- Embeds `table_class(data=queryset, **table_kwargs)`: a fresh unpaginated table
over the queryset with the class's columns and no pinned rows. -/
def TableClass.instantiate (tc : TableClass) (data : List Instance) : Table :=
  { columns := tc.base_columns
    page := none
    data := some { data := some data }
    pinned_top := []
    pinned_bottom := [] }

/-- Embeds `table.paginate(per_page=..., page=...)`: install the requested slice of
the table's data as the current page.  Only the successful pagination path is
modelled: for an invalid page number Django's `Paginator` raises
`EmptyPage`/`PageNotAnInteger`, while this embedding yields the clamped
(possibly empty) slice. -/
def Table.paginate (t : Table) (per_page : Nat) (page_number : Nat) : Table :=
  match t.data with
  | some td =>
    match td.data with
    | some l =>
      let sliced := (l.drop ((page_number - 1) * per_page)).take per_page
      { t with page := some { object_list := some { data := some sliced } } }
    | none => t
  | none => t

/-- The body of `get_table_queryset` before its `except AttributeError`
handler: `table.page.object_list.data if hasattr(table, "page") else
table.data.data`. -/
def get_table_queryset_unguarded (t : Table) : Except PyErr (List Instance) :=
  if t.page.isSome then do
    let page ← getattrEx t.page
    let object_list ← getattrEx page.object_list
    getattrEx object_list.data
  else do
    let d ← getattrEx t.data
    getattrEx d.data

/-- Embeds `get_table_queryset`: the queryset used by a bound table - the current
page's records when the table is paginated, all table rows otherwise, and
`None` when an `AttributeError` occurs along the lookup chain. -/
def get_table_queryset (t : Table) : Option (List Instance) :=
  match get_table_queryset_unguarded t with
  | Except.ok qs => some qs
  | Except.error _ => none

/-- The `Delete` column added for deletable formsets:
`tables.Column(verbose_name="Delete", orderable=False, empty_values=())`. -/
def delete_column : Column :=
  Column.plain
    { verbose_name := some "Delete"
      accessor := none
      default := none
      visible := true
      orderable := some false
      attrs := []
      order_by := none
      localize := none
      footer := none
      exclude_from_export := false
      linkify := false
      initial_sort_descending := false }

/-- Embeds `get_extra_columns`: the extra columns needed for the given formset class
(a `Delete` column when the formset supports deletion).  `can_delete` is a
class attribute, so the source can pass either the class or an instance. -/
def get_extra_columns (fc : FormsetClass) : List (String × Column) :=
  if fc.can_delete then [(DELETION_FIELD_NAME, delete_column)] else []

/-- The table keyword arguments the embedding tracks: the `extra_columns`
kwarg (the only table kwarg the source reads or writes). -/
structure TableKwargs where
  extra_columns : List (String × Column)
deriving DecidableEq, Repr

/-- Embeds `get_formset_table_kwargs`: merge the formset's extra columns with any
caller-supplied `extra_columns` (caller's entries win). -/
def get_formset_table_kwargs (fc : FormsetClass) (kwargs : TableKwargs) :
    TableKwargs :=
  { kwargs with extra_columns :=
      dictUpdate (dictOf (get_extra_columns fc)) (dictOf kwargs.extra_columns) }

/-- Embeds `add_extra_forms`: append the instances of `formset.extra_forms` to the
bottom pinned rows of the table. -/
def add_extra_forms (formset : Formset) (table : Table) : Table :=
  let bottom := table.pinned_bottom
  let extra_instances := formset.extra_forms.map (fun f => f.inst)
  { table with pinned_bottom := bottom ++ extra_instances }

/-- Embeds `set_table_forms`: install a `FormAccessor` over the real formset as the
`forms` attribute of the table's `FormFieldsColumn`s.  The source iterates
`table.columns`, and django-tables2's `BoundColumns.__iter__` is
`itervisible`, so only visible columns are reached: an invisible
`FormFieldsColumn` keeps whatever accessor it already holds. -/
def set_table_forms (formset : Formset) (table : Table) : Table :=
  let form_accessor : FormAccessor := { formset := formset }
  { table with columns := table.columns.map (fun p =>
      match p.2 with
      | Column.formFields cfg fa form_fields =>
        if cfg.visible
        then (p.1, Column.formFields cfg form_accessor form_fields)
        else (p.1, Column.formFields cfg fa form_fields)
      | c => (p.1, c)) }

/-- The `table_columns` dict of `get_table_class`:
`{**dict(extra_columns), **base.base_columns}`. -/
def table_columns_of (base : TableClass)
    (extra_columns : List (String × Column)) : List (String × Column) :=
  dictUpdate (dictOf extra_columns) base.base_columns

/-- The `visible_column_fields` tuple of `get_table_class`: the visible form
field names that are also table column names. -/
def visible_column_fields (base : TableClass)
    (extra_columns : List (String × Column)) (forms : FormAccessor) :
    List String :=
  (FormAccessor.visible_fields forms).filter
    (fun name => alContains (table_columns_of base extra_columns) name)

/-- One iteration of the column-replacement loop of `get_table_class`: when
the column name is a visible form field, assign a `FormFieldsColumn` clone
into `attrs` - the first such column receives the hidden fields followed by
its own name, every later one receives `None`. -/
def form_columns_step (forms : FormAccessor) (vcf : List String)
    (st : List (String × Column) × Bool) (nc : String × Column) :
    List (String × Column) × Bool :=
  if vcf.contains nc.1 then
    let fields :=
      if ¬ st.2 then some (FormAccessor.hidden_fields forms ++ [nc.1]) else none
    (alUpdate st.1 nc.1 (FormFieldsColumn.from_column forms nc.2 fields), true)
  else st

/-- The `attrs` dict built by the loop of `get_table_class` over
`chain(base.base_columns.items(), extra_columns)`. -/
def form_column_attrs (base : TableClass)
    (extra_columns : List (String × Column)) (forms : FormAccessor) :
    List (String × Column) :=
  ((base.base_columns ++ extra_columns).foldl
    (form_columns_step forms (visible_column_fields base extra_columns forms))
    ([], false)).1

/-- Embeds `get_table_class`: a subclass of the base table class whose visible form
field columns are overridden with `FormFieldsColumn` clones.  The subclass's
`base_columns` follow django-tables2's declarative metaclass: the parent's
columns updated in place by the declared `attrs` (new names appended in
declaration order).  The `Meta` copy does not affect columns and is not
modelled. -/
def get_table_class (base : TableClass)
    (extra_columns : List (String × Column)) (forms : FormAccessor) :
    TableClass :=
  { name := "FormFields" ++ base.name
    base_columns :=
      dictUpdate base.base_columns (form_column_attrs base extra_columns forms) }

/-- The `form_fields` argument that the loop of `get_table_class` assigns to
the replaced column named `n`: the first visible form-field column, in
iteration order over base columns then extra columns, receives all hidden
fields followed by its own name; every later one receives `None`.  This is a
closed-form description of the loop's `hidden_fields` flag, used to state
theorems about `get_table_class`. -/
def assigned_form_fields (base : TableClass)
    (extra_columns : List (String × Column)) (forms : FormAccessor)
    (n : String) : Option (List String) :=
  if ((base.base_columns ++ extra_columns).find?
        (fun q => (visible_column_fields base extra_columns forms).contains q.1)).map
        Prod.fst = some n
  then some (FormAccessor.hidden_fields forms ++ [n])
  else none

/-- Embeds `get_table`: build a placeholder formset over `queryset.none()` for field
metadata, derive the formset-ready table kwargs, pop `extra_columns`, build
the `FormFields` table subclass, and instantiate it over the queryset. -/
def get_table (queryset : List Instance) (base_class : TableClass)
    (table_kwargs : TableKwargs) (formset_class : FormsetClass) : Table :=
  let form_accessor : FormAccessor :=
    { formset := formset_class.instantiate (some []) }
  let table_kwargs := get_formset_table_kwargs formset_class table_kwargs
  let extra_columns := table_kwargs.extra_columns
  let table_class := get_table_class base_class extra_columns form_accessor
  table_class.instantiate queryset

/-- Embeds `get_formset`: instantiate the real formset over the table's queryset
(`None` falls back to the model's default manager inside Django), then hack
the forms into the table's `FormFieldsColumn`s and append the extra forms as
pinned rows.  Returns the formset and the (mutated in Python, threaded here)
table. -/
def get_formset (table : Table) (formset_class : FormsetClass) :
    Formset × Table :=
  let formset := formset_class.instantiate (get_table_queryset table)
  let table := set_table_forms formset table
  let table := add_extra_forms formset table
  (formset, table)

/-- Embeds `get_formset_table`: build the form-ready table, optionally paginate it
(`paginate` carries `per_page` and the page number), then build the formset
from the table's data and stitch the forms back into the table. -/
def get_formset_table (queryset : List Instance) (formset_class : FormsetClass)
    (table_class : TableClass) (table_kwargs : TableKwargs)
    (paginate : Option (Nat × Nat)) : Formset × Table :=
  let table := get_table queryset table_class table_kwargs formset_class
  let table :=
    match paginate with
    | some pp => table.paginate pp.1 pp.2
    | none => table
  get_formset table formset_class

/-- The state of a `BaseModelFormSetSingleTableMixin` view: its configuration
(base queryset from `get_table_data`, table class and kwargs, formset class,
and the request's pagination settings applied by `RequestConfig`) plus the
`_table` / `_formset` cache slots. -/
structure BaseModelFormSetSingleTableMixin where
  object_list : List Instance
  table_class : TableClass
  table_kwargs : TableKwargs
  formset_class : FormsetClass
  paginate : Option (Nat × Nat)
  _table : Option Table
  _formset : Option Formset
deriving DecidableEq, Repr

namespace BaseModelFormSetSingleTableMixin

/-- Embeds `RequestConfig(self.request, paginate=...).configure(table)`: paginate
the table per the request when pagination is configured. -/
def request_configure (v : BaseModelFormSetSingleTableMixin) (t : Table) :
    Table :=
  match v.paginate with
  | some pp => t.paginate pp.1 pp.2
  | none => t

/-- Embeds `get_formset_and_table`: build the formset/table pair once and cache it
in `_formset` / `_table`; later calls return the cached pair.  Returns the
pair and the updated view state. -/
def get_formset_and_table (v : BaseModelFormSetSingleTableMixin) :
    (Formset × Table) × BaseModelFormSetSingleTableMixin :=
  match v._table, v._formset with
  | some t, some f => ((f, t), v)
  | _, _ =>
    let table := get_table v.object_list v.table_class v.table_kwargs v.formset_class
    let table := v.request_configure table
    let ft := get_formset table v.formset_class
    (ft, { v with _table := some ft.2, _formset := some ft.1 })

/-- Embeds `the_table` property: the one table. -/
def the_table (v : BaseModelFormSetSingleTableMixin) :
    Table × BaseModelFormSetSingleTableMixin :=
  let r := v.get_formset_and_table
  (r.1.2, r.2)

/-- Embeds `get_table(**kwargs)` override: kwargs are ignored, the cached table is
returned instead. -/
def get_table (v : BaseModelFormSetSingleTableMixin) (_kwargs : TableKwargs) :
    Table × BaseModelFormSetSingleTableMixin :=
  v.the_table

/-- Embeds `the_formset` property: the one formset built with data from the one
table. -/
def the_formset (v : BaseModelFormSetSingleTableMixin) :
    Formset × BaseModelFormSetSingleTableMixin :=
  let r := v.get_formset_and_table
  (r.1.1, r.2)

/-- Embeds `construct_formset` override: no new formset is constructed, the one
integrated with the table is returned. -/
def construct_formset (v : BaseModelFormSetSingleTableMixin) :
    Formset × BaseModelFormSetSingleTableMixin :=
  v.the_formset

end BaseModelFormSetSingleTableMixin

/-! Concrete sample data used to exercise the definitions at explicit inputs. -/

/-- A sample column configuration. -/
def sample_config : ColumnConfig :=
  { verbose_name := some "Name"
    accessor := some "name"
    default := some "-"
    visible := true
    orderable := some true
    attrs := [("td", "x")]
    order_by := some ["name"]
    localize := none
    footer := some "total"
    exclude_from_export := false
    linkify := true
    initial_sort_descending := false }

/-- A sample model formset class: three fields of which `id` is hidden,
deletion enabled, one extra form. -/
def sample_formset_class : FormsetClass :=
  { field_names := ["id", "name", "price"]
    visible_names := ["name", "price"]
    can_delete := true
    extra := 1
    default_queryset := [Instance.record 99] }

/-- A sample base table class with three columns. -/
def sample_base_table : TableClass :=
  { name := "ItemTable"
    base_columns :=
      [("name", Column.plain sample_config),
       ("sku", Column.plain sample_config),
       ("price", Column.plain sample_config)] }

/-- A sample queryset of three records. -/
def sample_queryset : List Instance :=
  [Instance.record 0, Instance.record 1, Instance.record 2]

/-- A sample formset over the sample queryset. -/
def sample_formset : Formset :=
  { fclass := sample_formset_class, queryset := sample_queryset }

/-- A sample paginated table whose current page holds a single record. -/
def sample_paged_table : Table :=
  { columns := []
    page := some { object_list := some { data := some [Instance.record 7] } }
    data := some { data := some sample_queryset }
    pinned_top := []
    pinned_bottom := [] }

/-- A table whose `page` attribute exists but whose `page.object_list`
attribute is missing, so the lookup chain raises `AttributeError`. -/
def broken_table : Table :=
  { columns := []
    page := some { object_list := none }
    data := none
    pinned_top := []
    pinned_bottom := [] }

/-- A sample table containing one `FormFieldsColumn` and one plain column. -/
def sample_formfields_table : Table :=
  { columns :=
      [("name", Column.formFields sample_config
          { formset := { fclass := sample_formset_class, queryset := [] } } none),
       ("sku", Column.plain sample_config)]
    page := none
    data := some { data := some sample_queryset }
    pinned_top := [Instance.record 8]
    pinned_bottom := [Instance.record 5] }

/-- A column configuration identical to the sample one but invisible. -/
def invisible_config : ColumnConfig :=
  { sample_config with visible := false }

/-- A placeholder accessor over an empty queryset, standing for the one that
`get_table` installs before the real formset exists. -/
def stale_accessor : FormAccessor :=
  { formset := { fclass := sample_formset_class, queryset := [] } }

/-- A sample table whose only column is an invisible `FormFieldsColumn` still
holding the placeholder accessor. -/
def sample_invisible_table : Table :=
  { columns := [("name", Column.formFields invisible_config stale_accessor none)]
    page := none
    data := some { data := some sample_queryset }
    pinned_top := []
    pinned_bottom := [] }

/-- A sample placeholder accessor over an empty queryset. -/
def sample_accessor : FormAccessor :=
  { formset := { fclass := sample_formset_class, queryset := [] } }

/-- The extra columns derived from the sample formset class (a `Delete`
column, since deletion is enabled). -/
def sample_extra_columns : List (String × Column) :=
  get_extra_columns sample_formset_class

/-- A sample view state with an empty table/formset cache. -/
def sample_view : BaseModelFormSetSingleTableMixin :=
  { object_list := sample_queryset
    table_class := sample_base_table
    table_kwargs := { extra_columns := [] }
    formset_class := sample_formset_class
    paginate := some (2, 1)
    _table := none
    _formset := none }

section DictLemmas

variable {κ α : Type} [DecidableEq κ]

theorem alGet_eq_none (d : List (κ × α)) (k : κ) (h : ∀ p ∈ d, p.1 ≠ k) :
    alGet d k = none := by
  unfold alGet
  rw [List.find?_eq_none.mpr]
  · rfl
  · intro p hp
    simpa using h p hp

theorem alGet_cons_eq (p : κ × α) (rest : List (κ × α)) (k : κ) (h : p.1 = k) :
    alGet (p :: rest) k = some p.2 := by
  simp [alGet, List.find?_cons, h]

theorem alGet_cons_ne (p : κ × α) (rest : List (κ × α)) (k : κ) (h : p.1 ≠ k) :
    alGet (p :: rest) k = alGet rest k := by
  simp [alGet, List.find?_cons, h]

theorem alGet_eq_of_nodup_mem (d : List (κ × α)) (k : κ) (v : α) :
    (d.map Prod.fst).Nodup → (k, v) ∈ d → alGet d k = some v := by
  induction d with
  | nil => intro _ hm; cases hm
  | cons p rest ih =>
    intro hnd hm
    rcases List.mem_cons.mp hm with hm | hm
    · subst hm
      exact alGet_cons_eq _ _ _ rfl
    · have hk : p.1 ≠ k := by
        intro hcontra
        have : k ∈ rest.map Prod.fst := List.mem_map_of_mem Prod.fst hm
        rw [List.map_cons, List.nodup_cons] at hnd
        exact hnd.1 (hcontra ▸ this)
      rw [List.map_cons, List.nodup_cons] at hnd
      rw [alGet_cons_ne p rest k hk]
      exact ih hnd.2 hm

theorem alContains_iff (d : List (κ × α)) (k : κ) :
    alContains d k = true ↔ ∃ p ∈ d, p.1 = k := by
  simp [alContains]

theorem alContains_append (d e : List (κ × α)) (k : κ) :
    alContains (d ++ e) k = (alContains d k || alContains e k) := by
  simp [alContains, List.any_append]

theorem alContains_eq_false_iff (d : List (κ × α)) (k : κ) :
    alContains d k = false ↔ ∀ p ∈ d, p.1 ≠ k := by
  rw [← Bool.not_eq_true, alContains_iff]
  constructor
  · intro h p hp hpk
    exact h ⟨p, hp, hpk⟩
  · intro h hc
    rcases hc with ⟨p, hp, hpk⟩
    exact h p hp hpk

theorem alContains_map_update (d : List (κ × α)) (k : κ) (v : α) (k0 : κ) :
    alContains (d.map (fun p => if p.1 = k then (k, v) else p)) k0
      = alContains d k0 := by
  induction d with
  | nil => rfl
  | cons p rest ih =>
    by_cases hpk : p.1 = k
    · simp only [List.map_cons, if_pos hpk, alContains, List.any_cons]
      simp only [alContains] at ih
      rw [ih, hpk]
    · simp only [List.map_cons, if_neg hpk, alContains, List.any_cons]
      simp only [alContains] at ih
      rw [ih]

theorem alUpdate_of_forall_ne (d : List (κ × α)) (k : κ) (v : α)
    (h : ∀ p ∈ d, p.1 ≠ k) : alUpdate d k v = d ++ [(k, v)] := by
  unfold alUpdate
  rw [if_neg]
  simp only [List.any_eq_true, beq_iff_eq, not_exists, not_and]
  intro p hp
  exact h p hp

theorem alUpdate_of_mem (d : List (κ × α)) (k : κ) (v : α)
    (h : ∃ p ∈ d, p.1 = k) :
    alUpdate d k v = d.map (fun p => if p.1 = k then (k, v) else p) := by
  unfold alUpdate
  rw [if_pos]
  · simp only [beq_iff_eq]
  · simp only [List.any_eq_true, beq_iff_eq]
    exact h

theorem dictOf_eq_self_of_nodup (l : List (κ × α))
    (h : (l.map Prod.fst).Nodup) : dictOf l = l := by
  suffices hgen : ∀ (l acc : List (κ × α)), (l.map Prod.fst).Nodup →
      (∀ p ∈ l, ∀ q ∈ acc, q.1 ≠ p.1) → dictUpdate acc l = acc ++ l by
    simpa using hgen l [] h (by intro p _ q hq; cases hq)
  intro l
  induction l with
  | nil => intro acc _ _; simp [dictUpdate]
  | cons p rest ih =>
    intro acc hnd hdisj
    rw [List.map_cons, List.nodup_cons] at hnd
    have step : alUpdate acc p.1 p.2 = acc ++ [p] := by
      have := alUpdate_of_forall_ne acc p.1 p.2
        (fun q hq => hdisj p (List.mem_cons_self p rest) q hq)
      simpa using this
    have hdisj2 : ∀ q ∈ rest, ∀ r ∈ acc ++ [p], r.1 ≠ q.1 := by
      intro q hq r hr
      rcases List.mem_append.mp hr with hr | hr
      · exact hdisj q (List.mem_cons_of_mem p hq) r hr
      · rcases List.mem_singleton.mp hr with rfl
        intro hcontra
        exact hnd.1 (hcontra ▸ List.mem_map_of_mem Prod.fst hq)
    calc dictUpdate acc (p :: rest)
        = dictUpdate (alUpdate acc p.1 p.2) rest := by
          simp [dictUpdate]
      _ = dictUpdate (acc ++ [p]) rest := by rw [step]
      _ = (acc ++ [p]) ++ rest := ih (acc ++ [p]) hnd.2 hdisj2
      _ = acc ++ p :: rest := by simp

theorem dictUpdate_spec (kvs : List (κ × α)) :
    ∀ d : List (κ × α), (kvs.map Prod.fst).Nodup →
    dictUpdate d kvs
      = d.map (fun p => match alGet kvs p.1 with
          | some v => (p.1, v)
          | none => p)
        ++ kvs.filter (fun q => ! alContains d q.1) := by
  induction kvs with
  | nil =>
    intro d _
    simp [dictUpdate, alGet]
  | cons kv rest ih =>
    intro d hnd
    rw [List.map_cons, List.nodup_cons] at hnd
    have hknr : ∀ q ∈ rest, q.1 ≠ kv.1 := by
      intro q hq hcontra
      exact hnd.1 (hcontra ▸ List.mem_map_of_mem Prod.fst hq)
    have hgrest : alGet rest kv.1 = none := alGet_eq_none rest kv.1 hknr
    have hstep : dictUpdate d (kv :: rest)
        = dictUpdate (alUpdate d kv.1 kv.2) rest := by
      simp [dictUpdate]
    have hmapd : ∀ e : List (κ × α), (∀ p ∈ e, p.1 ≠ kv.1) →
        e.map (fun p => match alGet rest p.1 with
          | some v => (p.1, v)
          | none => p)
          = e.map (fun p => match alGet (kv :: rest) p.1 with
            | some v => (p.1, v)
            | none => p) := by
      intro e he
      apply List.map_congr_left
      intro p hp
      rw [alGet_cons_ne kv rest p.1 (fun hc => he p hp hc.symm)]
    by_cases hmem : ∃ p ∈ d, p.1 = kv.1
    · -- the head key is already present: updated in place, not appended
      rw [hstep, alUpdate_of_mem d kv.1 kv.2 hmem, ih _ hnd.2]
      have hcont : alContains d kv.1 = true := (alContains_iff d kv.1).mpr hmem
      congr 1
      · rw [List.map_map]
        apply List.map_congr_left
        intro p hp
        by_cases hpk : p.1 = kv.1
        · simp only [Function.comp_apply, if_pos hpk]
          show (match alGet rest kv.1 with
              | some v => (kv.1, v)
              | none => (kv.1, kv.2))
            = match alGet (kv :: rest) p.1 with
              | some v => (p.1, v)
              | none => p
          rw [hgrest, hpk, alGet_cons_eq kv rest kv.1 rfl]
        · simp only [Function.comp_apply, if_neg hpk]
          rw [alGet_cons_ne kv rest p.1 (fun hc => hpk hc.symm)]
      · rw [List.filter_cons]
        rw [if_neg (by simp [hcont])]
        apply List.filter_congr
        intro q hq
        rw [alContains_map_update d kv.1 kv.2 q.1]
    · -- the head key is new: appended at the end of the dict
      push_neg at hmem
      rw [hstep, alUpdate_of_forall_ne d kv.1 kv.2 (fun p hp => hmem p hp), ih _ hnd.2]
      have hcontf : alContains d kv.1 = false :=
        (alContains_eq_false_iff d kv.1).mpr hmem
      rw [List.map_append]
      have hkvmap : [kv].map (fun p => match alGet rest p.1 with
          | some v => (p.1, v)
          | none => p) = [kv] := by
        simp [hgrest]
      rw [hkvmap, hmapd d hmem]
      rw [List.filter_cons, if_pos (by simp [hcontf])]
      have hfilt : rest.filter (fun q => ! alContains (d ++ [kv]) q.1)
          = rest.filter (fun q => ! alContains d q.1) := by
        apply List.filter_congr
        intro q hq
        rw [alContains_append]
        have : alContains [kv] q.1 = false :=
          (alContains_eq_false_iff [kv] q.1).mpr
            (by intro p hp; rcases List.mem_singleton.mp hp with rfl; exact Ne.symm (hknr q hq))
        rw [this, Bool.or_false]
      rw [hfilt]
      simp

end DictLemmas

/-- C1: for every queryset, formset class, table class/kwargs and optional
pagination setting, the pair returned by `get_formset_table` satisfies the
shared-slice invariant: the formset's queryset is exactly the data underlying
the table's displayed rows - the current page's records when the table was
paginated, all of the table's rows otherwise. -/
theorem C1_shared_slice (qs : List Instance) (fc : FormsetClass)
    (tc : TableClass) (tk : TableKwargs) (pg : Option (Nat × Nat)) :
    match (get_formset_table qs fc tc tk pg).2.page with
    | some p => p = { object_list := some { data := some (get_formset_table qs fc tc tk pg).1.queryset } }
    | none => (get_formset_table qs fc tc tk pg).2.data
        = some { data := some (get_formset_table qs fc tc tk pg).1.queryset } := by
  cases pg with
  | none => rfl
  | some pp => rfl

/-- C2: `get_formset` instantiates the real formset with its queryset set to
the table's already paginated/sorted record set, and `get_table_queryset`
returns `table.page.object_list.data` when the table has a `page` attribute
(current page only) and `table.data.data` otherwise (all table rows). -/
theorem C2_formset_uses_table_queryset (table : Table) (fc : FormsetClass) :
    get_table_queryset table
        = (match table.page with
           | some p => p.object_list.bind (fun ol => ol.data)
           | none => table.data.bind (fun d => d.data))
      ∧ ∀ qs : List Instance, get_table_queryset table = some qs →
          ((get_formset table fc).1).queryset = qs := by
  constructor
  · rcases table with ⟨cols, page, data, pt, pb⟩
    cases page with
    | none =>
      cases data with
      | none => rfl
      | some td =>
        rcases td with ⟨d⟩
        cases d with
        | none => rfl
        | some l => rfl
    | some p =>
      rcases p with ⟨ol⟩
      cases ol with
      | none => rfl
      | some td =>
        rcases td with ⟨d⟩
        cases d with
        | none => rfl
        | some l => rfl
  · intro qs h
    simp [get_formset, FormsetClass.instantiate, h]

/-- Witness for C2 at a concrete paginated table: the formset is built over
exactly the page's records. -/
theorem C2_witness :
    ((get_formset sample_paged_table sample_formset_class).1).queryset
      = [Instance.record 7] :=
  (C2_formset_uses_table_queryset sample_paged_table sample_formset_class).2
    [Instance.record 7] rfl

/-- C4: `get_table` constructs its `FormAccessor` from a placeholder formset
instantiated over the empty queryset `queryset.none()` - before the real
formset exists - and builds and instantiates the form-ready table subclass
from that metadata. -/
theorem C4_placeholder_formset (qs : List Instance) (base : TableClass)
    (tk : TableKwargs) (fc : FormsetClass) :
    (fc.instantiate (some [])).queryset = []
      ∧ get_table qs base tk fc
          = TableClass.instantiate
              (get_table_class base (get_formset_table_kwargs fc tk).extra_columns
                { formset := fc.instantiate (some []) })
              qs :=
  ⟨rfl, rfl⟩

/-- C5: `add_extra_forms` appends the instances of all the formset's extra
(blank) forms to the table's bottom pinned rows, after the pre-existing bottom
pinned rows which are preserved in order; top pinned rows, columns, data and
page are unchanged. -/
theorem C5_add_extra_forms (formset : Formset) (table : Table) :
    (add_extra_forms formset table).pinned_bottom
        = table.pinned_bottom ++ formset.extra_forms.map (fun f => f.inst)
      ∧ (add_extra_forms formset table).pinned_top = table.pinned_top
      ∧ (add_extra_forms formset table).columns = table.columns
      ∧ (add_extra_forms formset table).data = table.data
      ∧ (add_extra_forms formset table).page = table.page :=
  ⟨rfl, rfl, rfl, rfl, rfl⟩

/-- C6 counterexample: on a table whose only `FormFieldsColumn` is invisible,
`set_table_forms` leaves the stale placeholder accessor in place (the source
iterates `table.columns`, which yields only visible bound columns), so it is
false that every `FormFieldsColumn` receives the real formset's accessor. -/
theorem C6_counterexample :
    (set_table_forms sample_formset sample_invisible_table).columns
        = [("name", Column.formFields invisible_config stale_accessor none)]
      ∧ stale_accessor ≠ { formset := sample_formset } := by
  refine ⟨rfl, ?_⟩
  decide

/-- C6 (amended): `set_table_forms` installs a `FormAccessor` wrapping the
real formset as the `forms` attribute of every visible `FormFieldsColumn` of
the table; invisible `FormFieldsColumn`s keep their old accessor, no other
column is mutated, and no other part of the table changes. -/
theorem C6_set_table_forms (formset : Formset) (table : Table) :
    (set_table_forms formset table).columns
        = table.columns.map (fun p =>
            match p.2 with
            | Column.formFields cfg fa form_fields =>
              if cfg.visible
              then (p.1, Column.formFields cfg { formset := formset } form_fields)
              else (p.1, Column.formFields cfg fa form_fields)
            | c => (p.1, c))
      ∧ (∀ n : String, ∀ cfg : ColumnConfig, ∀ fa : FormAccessor,
          ∀ ff : Option (List String),
          (n, Column.formFields cfg fa ff) ∈ table.columns →
          cfg.visible = true →
          (n, Column.formFields cfg { formset := formset } ff)
            ∈ (set_table_forms formset table).columns)
      ∧ (∀ n : String, ∀ cfg : ColumnConfig, ∀ fa : FormAccessor,
          ∀ ff : Option (List String),
          (n, Column.formFields cfg fa ff) ∈ table.columns →
          cfg.visible = false →
          (n, Column.formFields cfg fa ff)
            ∈ (set_table_forms formset table).columns)
      ∧ (∀ n : String, ∀ c : Column, (n, c) ∈ table.columns →
          c.isFormFieldsColumn = false →
          (n, c) ∈ (set_table_forms formset table).columns)
      ∧ (set_table_forms formset table).pinned_top = table.pinned_top
      ∧ (set_table_forms formset table).pinned_bottom = table.pinned_bottom
      ∧ (set_table_forms formset table).data = table.data
      ∧ (set_table_forms formset table).page = table.page := by
  refine ⟨rfl, ?_, ?_, ?_, rfl, rfl, rfl, rfl⟩
  · intro n cfg fa ff hm hv
    have h1 := List.mem_map_of_mem (fun p : String × Column =>
      match p.2 with
      | Column.formFields cfg fa form_fields =>
        if cfg.visible
        then (p.1, Column.formFields cfg { formset := formset } form_fields)
        else (p.1, Column.formFields cfg fa form_fields)
      | c => (p.1, c)) hm
    have h2 : (fun p : String × Column =>
        match p.2 with
        | Column.formFields cfg fa form_fields =>
          if cfg.visible
          then (p.1, Column.formFields cfg { formset := formset } form_fields)
          else (p.1, Column.formFields cfg fa form_fields)
        | c => (p.1, c)) (n, Column.formFields cfg fa ff)
        = (n, Column.formFields cfg { formset := formset } ff) := by
      simp [hv]
    rw [h2] at h1
    exact h1
  · intro n cfg fa ff hm hv
    have h1 := List.mem_map_of_mem (fun p : String × Column =>
      match p.2 with
      | Column.formFields cfg fa form_fields =>
        if cfg.visible
        then (p.1, Column.formFields cfg { formset := formset } form_fields)
        else (p.1, Column.formFields cfg fa form_fields)
      | c => (p.1, c)) hm
    have h2 : (fun p : String × Column =>
        match p.2 with
        | Column.formFields cfg fa form_fields =>
          if cfg.visible
          then (p.1, Column.formFields cfg { formset := formset } form_fields)
          else (p.1, Column.formFields cfg fa form_fields)
        | c => (p.1, c)) (n, Column.formFields cfg fa ff)
        = (n, Column.formFields cfg fa ff) := by
      simp [hv]
    rw [h2] at h1
    exact h1
  · intro n c hm hnf
    have h1 := List.mem_map_of_mem (fun p : String × Column =>
      match p.2 with
      | Column.formFields cfg fa form_fields =>
        if cfg.visible
        then (p.1, Column.formFields cfg { formset := formset } form_fields)
        else (p.1, Column.formFields cfg fa form_fields)
      | c => (p.1, c)) hm
    have h2 : (fun p : String × Column =>
        match p.2 with
        | Column.formFields cfg fa form_fields =>
          if cfg.visible
          then (p.1, Column.formFields cfg { formset := formset } form_fields)
          else (p.1, Column.formFields cfg fa form_fields)
        | c => (p.1, c)) (n, c) = (n, c) := by
      cases c with
      | plain cfg => rfl
      | formFields cfg fa ff => simp [Column.isFormFieldsColumn] at hnf
    rw [h2] at h1
    exact h1

/-- Witness for C6 at a concrete table: the visible `FormFieldsColumn`
receives the real formset's accessor, the plain column is untouched, and the
invisible `FormFieldsColumn` of the counterexample table keeps its stale
accessor. -/
theorem C6_witness :
    ("name", Column.formFields sample_config { formset := sample_formset } none)
        ∈ (set_table_forms sample_formset sample_formfields_table).columns
      ∧ ("sku", Column.plain sample_config)
        ∈ (set_table_forms sample_formset sample_formfields_table).columns
      ∧ ("name", Column.formFields invisible_config stale_accessor none)
        ∈ (set_table_forms sample_formset sample_invisible_table).columns := by
  refine ⟨?_, ?_, ?_⟩
  · exact (C6_set_table_forms sample_formset sample_formfields_table).2.1
      "name" sample_config
      { formset := { fclass := sample_formset_class, queryset := [] } } none
      (by decide) (by decide)
  · exact (C6_set_table_forms sample_formset sample_formfields_table).2.2.2.1
      "sku" (Column.plain sample_config) (by decide) (by decide)
  · exact (C6_set_table_forms sample_formset sample_invisible_table).2.2.1
      "name" invisible_config stale_accessor none (by decide) (by decide)

/-- C7: `get_table_queryset` never raises - whenever the attribute lookup
chain fails, the error is an `AttributeError` and the function swallows it,
returning `None` instead of propagating. -/
theorem C7_swallows_attribute_error (t : Table) (e : PyErr)
    (h : get_table_queryset_unguarded t = Except.error e) :
    e = PyErr.attributeError ∧ get_table_queryset t = none := by
  refine ⟨?_, by simp [get_table_queryset, h]⟩
  rcases t with ⟨cols, page, data, pt, pb⟩
  cases page with
  | some p =>
    rcases p with ⟨ol⟩
    cases ol with
    | none =>
      have h2 : get_table_queryset_unguarded
          ⟨cols, some ⟨none⟩, data, pt, pb⟩
            = Except.error PyErr.attributeError := rfl
      rw [h2] at h
      injection h with he
      exact he.symm
    | some td =>
      rcases td with ⟨d⟩
      cases d with
      | none =>
        have h2 : get_table_queryset_unguarded
            ⟨cols, some ⟨some ⟨none⟩⟩, data, pt, pb⟩
              = Except.error PyErr.attributeError := rfl
        rw [h2] at h
        injection h with he
        exact he.symm
      | some l =>
        have h2 : get_table_queryset_unguarded
            ⟨cols, some ⟨some ⟨some l⟩⟩, data, pt, pb⟩
              = Except.ok l := rfl
        rw [h2] at h
        exact Except.noConfusion h
  | none =>
    cases data with
    | none =>
      have h2 : get_table_queryset_unguarded ⟨cols, none, none, pt, pb⟩
          = Except.error PyErr.attributeError := rfl
      rw [h2] at h
      injection h with he
      exact he.symm
    | some td =>
      rcases td with ⟨d⟩
      cases d with
      | none =>
        have h2 : get_table_queryset_unguarded ⟨cols, none, some ⟨none⟩, pt, pb⟩
            = Except.error PyErr.attributeError := rfl
        rw [h2] at h
        injection h with he
        exact he.symm
      | some l =>
        have h2 : get_table_queryset_unguarded ⟨cols, none, some ⟨some l⟩, pt, pb⟩
            = Except.ok l := rfl
        rw [h2] at h
        exact Except.noConfusion h

/-- Witness for C7 at a concrete table whose `page.object_list` attribute is
missing: the swallowed error yields `None`. -/
theorem C7_witness : get_table_queryset broken_table = none :=
  (C7_swallows_attribute_error broken_table PyErr.attributeError rfl).2

theorem listIndex_nonneg_ok {α : Type} (l : List α) (i : Nat)
    (h : i < l.length) : listIndex l (i : Int) = Except.ok (l.get ⟨i, h⟩) := by
  unfold listIndex
  rw [if_neg (by omega)]
  rw [show ((i : Int)).toNat = i by omega]
  rw [List.get?_eq_get h]

theorem listIndex_neg_ok {α : Type} (l : List α) (i : Int) (h1 : i < 0)
    (h2 : 0 ≤ i + l.length) :
    ∃ hn : (i + l.length).toNat < l.length,
      listIndex l i = Except.ok (l.get ⟨(i + l.length).toNat, hn⟩) := by
  have hn : (i + l.length).toNat < l.length := by omega
  refine ⟨hn, ?_⟩
  unfold listIndex
  rw [if_pos h1, if_neg (by omega)]
  rw [List.get?_eq_get hn]

theorem listIndex_out_of_range {α : Type} (l : List α) (i : Int)
    (h : (l.length : Int) ≤ i ∨ i + l.length < 0) :
    listIndex l i = Except.error PyErr.indexError := by
  unfold listIndex
  rcases h with h | h
  · rw [if_neg (by omega)]
    rw [List.get?_eq_none.mpr (by omega)]
  · rw [if_pos (by omega), if_pos h]

/-- C8: `FormAccessor` lookup is total in the success case and precise in the
failure case.  For an integer index, `accessor[i]` returns the i-th form
(Python indexing, including negative indices) and an out-of-range index
propagates `IndexError`; for an instance key, `accessor[instance]` returns
the form whose `form.instance` is that exact object and raises `KeyError`
exactly when no form of the formset has that instance. -/
theorem C8_form_accessor_getitem (fs : Formset)
    (hnd : (fs.forms.map Form.inst).Nodup) :
    (∀ (i : Nat) (h : i < fs.forms.length),
        FormAccessor.getitem { formset := fs } (FormKey.idx (i : Int))
          = Except.ok (fs.forms.get ⟨i, h⟩))
  ∧ (∀ i : Int, i < 0 → 0 ≤ i + fs.forms.length →
        ∃ h : (i + fs.forms.length).toNat < fs.forms.length,
        FormAccessor.getitem { formset := fs } (FormKey.idx i)
          = Except.ok (fs.forms.get ⟨(i + fs.forms.length).toNat, h⟩))
  ∧ (∀ i : Int, ((fs.forms.length : Int) ≤ i ∨ i + fs.forms.length < 0) →
        FormAccessor.getitem { formset := fs } (FormKey.idx i)
          = Except.error PyErr.indexError)
  ∧ (∀ (x : Instance) (f : Form), f ∈ fs.forms → f.inst = x →
        FormAccessor.getitem { formset := fs } (FormKey.inst x) = Except.ok f)
  ∧ (∀ x : Instance, (∀ f ∈ fs.forms, f.inst ≠ x) →
        FormAccessor.getitem { formset := fs } (FormKey.inst x)
          = Except.error (PyErr.keyError form_map_key_error)) := by
  have hkeys : ((fs.forms.map (fun f => (f.inst, f))).map Prod.fst).Nodup := by
    rw [List.map_map]
    exact hnd
  have hmap : FormAccessor.form_map { formset := fs }
      = fs.forms.map (fun f => (f.inst, f)) := by
    unfold FormAccessor.form_map
    exact dictOf_eq_self_of_nodup _ hkeys
  refine ⟨?_, ?_, ?_, ?_, ?_⟩
  · intro i h
    show listIndex fs.forms (i : Int) = _
    exact listIndex_nonneg_ok fs.forms i h
  · intro i h1 h2
    exact listIndex_neg_ok fs.forms i h1 h2
  · intro i h
    show listIndex fs.forms i = _
    exact listIndex_out_of_range fs.forms i h
  · intro x f hf hfx
    have hm : (x, f) ∈ fs.forms.map (fun f => (f.inst, f)) := by
      subst hfx
      exact List.mem_map_of_mem _ hf
    show (match alGet (FormAccessor.form_map { formset := fs }) x with
      | some f => Except.ok f
      | none => Except.error (PyErr.keyError form_map_key_error)) = Except.ok f
    rw [hmap, alGet_eq_of_nodup_mem _ x f hkeys hm]
  · intro x hx
    have hnone : alGet (fs.forms.map (fun f => (f.inst, f))) x = none := by
      apply alGet_eq_none
      intro p hp
      rcases List.mem_map.mp hp with ⟨f, hf, rfl⟩
      exact hx f hf
    show (match alGet (FormAccessor.form_map { formset := fs }) x with
      | some f => Except.ok f
      | none => Except.error (PyErr.keyError form_map_key_error))
      = Except.error (PyErr.keyError form_map_key_error)
    rw [hmap, hnone]

/-- Witness for C8 at a concrete formset of three initial forms and one extra
form: positive and negative in-range indices, an out-of-range index, a
present instance and a missing instance. -/
theorem C8_witness :
    FormAccessor.getitem { formset := sample_formset } (FormKey.idx 1)
        = Except.ok { inst := Instance.record 1 }
  ∧ FormAccessor.getitem { formset := sample_formset } (FormKey.idx (-1))
        = Except.ok { inst := Instance.blank 0 }
  ∧ FormAccessor.getitem { formset := sample_formset } (FormKey.idx 7)
        = Except.error PyErr.indexError
  ∧ FormAccessor.getitem { formset := sample_formset }
        (FormKey.inst (Instance.record 2))
        = Except.ok { inst := Instance.record 2 }
  ∧ FormAccessor.getitem { formset := sample_formset }
        (FormKey.inst (Instance.record 42))
        = Except.error (PyErr.keyError form_map_key_error) := by
  have h := C8_form_accessor_getitem sample_formset (by decide)
  refine ⟨?_, ?_, ?_, ?_, ?_⟩
  · exact (h.1 1 (by decide)).trans (by rfl)
  · obtain ⟨hn, he⟩ := h.2.1 (-1) (by decide) (by decide)
    exact he.trans (by rfl)
  · exact h.2.2.1 7 (Or.inl (by decide))
  · exact h.2.2.2.1 (Instance.record 2) { inst := Instance.record 2 }
      (by decide) rfl
  · exact h.2.2.2.2 (Instance.record 42) (by decide)

/-- C10: in `BaseModelFormSetSingleTableMixin` the table/formset pair is built
at most once per view instance: whatever `get_formset_and_table` returns is
cached in `_table` / `_formset`, a repeated call returns the identical cached
pair, `get_table` (whose keyword arguments are ignored) returns the identical
cached table, and `construct_formset` returns the identical cached formset. -/
theorem C10_view_caching (v : BaseModelFormSetSingleTableMixin)
    (f : Formset) (t : Table) (v2 : BaseModelFormSetSingleTableMixin)
    (h : v.get_formset_and_table = ((f, t), v2)) :
    v2._table = some t
  ∧ v2._formset = some f
  ∧ v2.get_formset_and_table = ((f, t), v2)
  ∧ (∀ kwargs : TableKwargs, v2.get_table kwargs = (t, v2))
  ∧ v2.construct_formset = (f, v2) := by
  have hA : ((v.get_formset_and_table).2)._table
        = some (v.get_formset_and_table).1.2
      ∧ ((v.get_formset_and_table).2)._formset
        = some (v.get_formset_and_table).1.1 := by
    rcases v with ⟨ol, tc, tk, fcl, pg, tcache, fcache⟩
    cases tcache with
    | some t0 =>
      cases fcache with
      | some f0 => exact ⟨rfl, rfl⟩
      | none => exact ⟨rfl, rfl⟩
    | none => exact ⟨rfl, rfl⟩
  rw [h] at hA
  have hB : ∀ (w : BaseModelFormSetSingleTableMixin) (f0 : Formset) (t0 : Table),
      w._table = some t0 → w._formset = some f0 →
      w.get_formset_and_table = ((f0, t0), w) := by
    intro w f0 t0 hw1 hw2
    rcases w with ⟨ol, tc, tk, fcl, pg, tcache, fcache⟩
    subst hw1
    subst hw2
    rfl
  have h1 : v2._table = some t := hA.1
  have h2 : v2._formset = some f := hA.2
  refine ⟨h1, h2, hB v2 f t h1 h2, ?_, ?_⟩
  · intro kw
    show ((v2.get_formset_and_table).1.2, (v2.get_formset_and_table).2) = (t, v2)
    rw [hB v2 f t h1 h2]
  · show ((v2.get_formset_and_table).1.1, (v2.get_formset_and_table).2) = (f, v2)
    rw [hB v2 f t h1 h2]

theorem form_columns_foldl_true (forms : FormAccessor) (vcf : List String) :
    ∀ cols attrs0 : List (String × Column),
    ((cols.map Prod.fst).Nodup) →
    (∀ p ∈ cols, ∀ q ∈ attrs0, q.1 ≠ p.1) →
    cols.foldl (form_columns_step forms vcf) (attrs0, true)
      = (attrs0 ++ (cols.filter (fun p => vcf.contains p.1)).map
          (fun p => (p.1, FormFieldsColumn.from_column forms p.2 none)), true) := by
  intro cols
  induction cols with
  | nil =>
    intro attrs0 _ _
    simp
  | cons nc rest ih =>
    intro attrs0 hnd hdisj
    rw [List.map_cons, List.nodup_cons] at hnd
    rw [List.foldl_cons]
    by_cases hv : vcf.contains nc.1 = true
    · have hv2 : nc.1 ∈ vcf := by simpa using hv
      have h1 : alUpdate attrs0 nc.1
          (FormFieldsColumn.from_column forms nc.2 none)
          = attrs0 ++ [(nc.1, FormFieldsColumn.from_column forms nc.2 none)] :=
        alUpdate_of_forall_ne _ _ _
          (fun q hq => hdisj nc (List.mem_cons_self nc rest) q hq)
      have hstep : form_columns_step forms vcf (attrs0, true) nc
          = (attrs0 ++ [(nc.1, FormFieldsColumn.from_column forms nc.2 none)],
              true) := by
        simp [form_columns_step, hv2, h1]
      rw [hstep]
      have hdisj2 : ∀ p ∈ rest,
          ∀ q ∈ attrs0 ++ [(nc.1, FormFieldsColumn.from_column forms nc.2 none)],
          q.1 ≠ p.1 := by
        intro p hp q hq
        rcases List.mem_append.mp hq with hq | hq
        · exact hdisj p (List.mem_cons_of_mem nc hp) q hq
        · rcases List.mem_singleton.mp hq with rfl
          intro hc
          exact hnd.1 (hc ▸ List.mem_map_of_mem Prod.fst hp)
      rw [ih _ hnd.2 hdisj2]
      rw [@List.filter_cons_of_pos _ (fun p => vcf.contains p.1) nc rest hv,
        List.map_cons]
      simp [List.append_assoc]
    · have hv2 : ¬ nc.1 ∈ vcf := by simpa using hv
      have hstep : form_columns_step forms vcf (attrs0, true) nc
          = (attrs0, true) := by
        simp [form_columns_step, hv2]
      rw [hstep,
        ih _ hnd.2 (fun p hp q hq => hdisj p (List.mem_cons_of_mem nc hp) q hq)]
      rw [@List.filter_cons_of_neg _ (fun p => vcf.contains p.1) nc rest hv]

theorem form_columns_foldl_false (forms : FormAccessor) (vcf : List String) :
    ∀ cols attrs0 : List (String × Column),
    ((cols.map Prod.fst).Nodup) →
    (∀ p ∈ cols, ∀ q ∈ attrs0, q.1 ≠ p.1) →
    (cols.foldl (form_columns_step forms vcf) (attrs0, false)).1
      = attrs0 ++ (cols.filter (fun p => vcf.contains p.1)).map
          (fun p => (p.1, FormFieldsColumn.from_column forms p.2
            (if (cols.find? (fun q => vcf.contains q.1)).map Prod.fst = some p.1
             then some (FormAccessor.hidden_fields forms ++ [p.1])
             else none))) := by
  intro cols
  induction cols with
  | nil =>
    intro attrs0 _ _
    simp
  | cons nc rest ih =>
    intro attrs0 hnd hdisj
    rw [List.map_cons, List.nodup_cons] at hnd
    rw [List.foldl_cons]
    by_cases hv : vcf.contains nc.1 = true
    · have hv2 : nc.1 ∈ vcf := by simpa using hv
      have h1 : alUpdate attrs0 nc.1
          (FormFieldsColumn.from_column forms nc.2
            (some (FormAccessor.hidden_fields forms ++ [nc.1])))
          = attrs0 ++ [(nc.1, FormFieldsColumn.from_column forms nc.2
              (some (FormAccessor.hidden_fields forms ++ [nc.1])))] :=
        alUpdate_of_forall_ne _ _ _
          (fun q hq => hdisj nc (List.mem_cons_self nc rest) q hq)
      have hstep : form_columns_step forms vcf (attrs0, false) nc
          = (attrs0 ++ [(nc.1, FormFieldsColumn.from_column forms nc.2
              (some (FormAccessor.hidden_fields forms ++ [nc.1])))], true) := by
        simp [form_columns_step, hv2, h1]
      rw [hstep]
      have hdisj2 : ∀ p ∈ rest,
          ∀ q ∈ attrs0 ++ [(nc.1, FormFieldsColumn.from_column forms nc.2
            (some (FormAccessor.hidden_fields forms ++ [nc.1])))],
          q.1 ≠ p.1 := by
        intro p hp q hq
        rcases List.mem_append.mp hq with hq | hq
        · exact hdisj p (List.mem_cons_of_mem nc hp) q hq
        · rcases List.mem_singleton.mp hq with rfl
          intro hc
          exact hnd.1 (hc ▸ List.mem_map_of_mem Prod.fst hp)
      rw [form_columns_foldl_true forms vcf rest _ hnd.2 hdisj2]
      have hfind : (nc :: rest).find? (fun q => vcf.contains q.1) = some nc :=
        List.find?_cons_of_pos rest hv
      rw [hfind]
      rw [@List.filter_cons_of_pos _ (fun p => vcf.contains p.1) nc rest hv,
        List.map_cons]
      have htail : (rest.filter (fun p => vcf.contains p.1)).map
            (fun p => (p.1, FormFieldsColumn.from_column forms p.2
              (if (some nc).map Prod.fst = some p.1
               then some (FormAccessor.hidden_fields forms ++ [p.1])
               else none)))
          = (rest.filter (fun p => vcf.contains p.1)).map
            (fun p => (p.1, FormFieldsColumn.from_column forms p.2 none)) := by
        apply List.map_congr_left
        intro p hp
        have hpr : p ∈ rest := List.mem_of_mem_filter hp
        have hne : nc.1 ≠ p.1 := by
          intro hc
          exact hnd.1 (hc ▸ List.mem_map_of_mem Prod.fst hpr)
        have hcond : ¬ ((some nc).map Prod.fst = some p.1) := by
          simpa using hne
        rw [if_neg hcond]
      rw [htail]
      have hhead : (if (some nc).map Prod.fst = some nc.1
          then some (FormAccessor.hidden_fields forms ++ [nc.1]) else none)
          = some (FormAccessor.hidden_fields forms ++ [nc.1]) := by
        rw [if_pos]
        rfl
      rw [hhead]
      simp [List.append_assoc]
    · have hv2 : ¬ nc.1 ∈ vcf := by simpa using hv
      have hstep : form_columns_step forms vcf (attrs0, false) nc
          = (attrs0, false) := by
        simp [form_columns_step, hv2]
      rw [hstep,
        ih _ hnd.2 (fun p hp q hq => hdisj p (List.mem_cons_of_mem nc hp) q hq)]
      have hfind : (nc :: rest).find? (fun q => vcf.contains q.1)
          = rest.find? (fun q => vcf.contains q.1) :=
        List.find?_cons_of_neg rest hv
      rw [@List.filter_cons_of_neg _ (fun p => vcf.contains p.1) nc rest hv, hfind]

theorem get_table_class_spec (base : TableClass)
    (extra_columns : List (String × Column)) (forms : FormAccessor)
    (hB : (base.base_columns.map Prod.fst).Nodup)
    (hE : (extra_columns.map Prod.fst).Nodup)
    (hBE : ∀ n ∈ extra_columns.map Prod.fst,
      n ∉ base.base_columns.map Prod.fst) :
    (get_table_class base extra_columns forms).base_columns
      = base.base_columns.map (fun p =>
          if (visible_column_fields base extra_columns forms).contains p.1
          then (p.1, FormFieldsColumn.from_column forms p.2
            (assigned_form_fields base extra_columns forms p.1))
          else p)
        ++ (extra_columns.filter
            (fun p => (visible_column_fields base extra_columns forms).contains p.1)).map
          (fun p => (p.1, FormFieldsColumn.from_column forms p.2
            (assigned_form_fields base extra_columns forms p.1))) := by
  have hchainkeys : ((base.base_columns ++ extra_columns).map Prod.fst).Nodup := by
    rw [List.map_append]
    exact List.Nodup.append hB hE (fun n hn1 hn2 => hBE n hn2 hn1)
  have hattrs : form_column_attrs base extra_columns forms
      = ((base.base_columns ++ extra_columns).filter
          (fun p => (visible_column_fields base extra_columns forms).contains p.1)).map
        (fun p => (p.1, FormFieldsColumn.from_column forms p.2
          (assigned_form_fields base extra_columns forms p.1))) := by
    unfold form_column_attrs
    rw [form_columns_foldl_false forms
      (visible_column_fields base extra_columns forms)
      (base.base_columns ++ extra_columns) [] hchainkeys
      (by intro p _ q hq; cases hq)]
    rfl
  have hattrskeys :
      ((form_column_attrs base extra_columns forms).map Prod.fst).Nodup := by
    rw [hattrs, List.map_map]
    have hfun : (Prod.fst ∘ fun p : String × Column =>
        (p.1, FormFieldsColumn.from_column forms p.2
          (assigned_form_fields base extra_columns forms p.1))) = Prod.fst := rfl
    rw [hfun]
    exact List.Nodup.sublist
      (List.Sublist.map Prod.fst (List.filter_sublist _)) hchainkeys
  show dictUpdate base.base_columns (form_column_attrs base extra_columns forms)
      = _
  rw [dictUpdate_spec (form_column_attrs base extra_columns forms)
    base.base_columns hattrskeys]
  have hfiltattrs : (form_column_attrs base extra_columns forms).filter
        (fun q => ! alContains base.base_columns q.1)
      = (extra_columns.filter
          (fun p => (visible_column_fields base extra_columns forms).contains p.1)).map
        (fun p => (p.1, FormFieldsColumn.from_column forms p.2
          (assigned_form_fields base extra_columns forms p.1))) := by
    rw [hattrs, List.filter_append, List.map_append, List.filter_append]
    have hpart1 : ((base.base_columns.filter
          (fun p => (visible_column_fields base extra_columns forms).contains p.1)).map
          (fun p => (p.1, FormFieldsColumn.from_column forms p.2
            (assigned_form_fields base extra_columns forms p.1)))).filter
          (fun q => ! alContains base.base_columns q.1) = [] := by
      rw [List.filter_eq_nil_iff]
      intro a ha
      rcases List.mem_map.mp ha with ⟨r, hr, rfl⟩
      have hrB : r ∈ base.base_columns := (List.mem_filter.mp hr).1
      have : alContains base.base_columns r.1 = true :=
        (alContains_iff _ _).mpr ⟨r, hrB, rfl⟩
      simp [this]
    have hpart2 : ((extra_columns.filter
          (fun p => (visible_column_fields base extra_columns forms).contains p.1)).map
          (fun p => (p.1, FormFieldsColumn.from_column forms p.2
            (assigned_form_fields base extra_columns forms p.1)))).filter
          (fun q => ! alContains base.base_columns q.1)
        = (extra_columns.filter
            (fun p => (visible_column_fields base extra_columns forms).contains p.1)).map
          (fun p => (p.1, FormFieldsColumn.from_column forms p.2
            (assigned_form_fields base extra_columns forms p.1))) := by
      rw [List.filter_eq_self]
      intro a ha
      rcases List.mem_map.mp ha with ⟨r, hr, rfl⟩
      have hrE : r ∈ extra_columns := (List.mem_filter.mp hr).1
      have hkey : r.1 ∉ base.base_columns.map Prod.fst :=
        hBE r.1 (List.mem_map_of_mem Prod.fst hrE)
      have : alContains base.base_columns r.1 = false := by
        rw [alContains_eq_false_iff]
        intro q hq hc
        exact hkey (hc ▸ List.mem_map_of_mem Prod.fst hq)
      simp [this]
    rw [hpart1, hpart2, List.nil_append]
  rw [hfiltattrs]
  congr 1
  apply List.map_congr_left
  intro p hp
  by_cases hv :
      (visible_column_fields base extra_columns forms).contains p.1 = true
  · have hmem : (p.1, FormFieldsColumn.from_column forms p.2
        (assigned_form_fields base extra_columns forms p.1))
        ∈ form_column_attrs base extra_columns forms := by
      rw [hattrs]
      exact List.mem_map_of_mem _
        (List.mem_filter.mpr ⟨List.mem_append.mpr (Or.inl hp), hv⟩)
    rw [alGet_eq_of_nodup_mem _ p.1 _ hattrskeys hmem, if_pos hv]
  · have hnone : alGet (form_column_attrs base extra_columns forms) p.1
        = none := by
      apply alGet_eq_none
      intro q hq
      rw [hattrs] at hq
      rcases List.mem_map.mp hq with ⟨r, hr, rfl⟩
      have hvr := (List.mem_filter.mp hr).2
      intro hc
      exact hv (hc ▸ hvr)
    rw [hnone, if_neg hv]

/-- C3 counterexample: in the class built from the sample inputs, the `DELETE`
column (whose original has no accessor) is replaced by a clone whose accessor
is the literal string `"None"` - the source's `accessor=str(other.accessor)` -
so the replacement does not preserve the original column's accessor as the
claim states. -/
theorem C3_counterexample :
    alGet (get_table_class sample_base_table sample_extra_columns sample_accessor).base_columns
        DELETION_FIELD_NAME
      = some (FormFieldsColumn.from_column sample_accessor delete_column none)
    ∧ (FormFieldsColumn.from_column sample_accessor delete_column none).cfg.accessor
      = some "None"
    ∧ delete_column.cfg.accessor = none :=
  ⟨rfl, rfl, rfl⟩

/-- C3 (amended): `get_table_class` returns a subclass of the base class in
which exactly those columns whose name is a visible form field are replaced by
`FormFieldsColumn` variants; each replacement preserves the original column's
configuration (verbose name, default, visibility, orderability, attrs,
order-by, localize, footer, export exclusion, initial sort direction) except
that `linkify` is always disabled and the accessor becomes
`str(original accessor)` - the original accessor string when one was set, the
literal string `"None"` when the original column had no accessor; columns not
matching a visible form field are left unchanged. -/
theorem C3_get_table_class (base : TableClass)
    (extra_columns : List (String × Column)) (forms : FormAccessor)
    (hB : (base.base_columns.map Prod.fst).Nodup)
    (hE : (extra_columns.map Prod.fst).Nodup)
    (hBE : ∀ n ∈ extra_columns.map Prod.fst,
      n ∉ base.base_columns.map Prod.fst) :
    ∃ ffields : String → Option (List String),
    (get_table_class base extra_columns forms).base_columns
      = base.base_columns.map (fun p =>
          if (visible_column_fields base extra_columns forms).contains p.1
          then (p.1, Column.formFields
            { p.2.cfg with accessor := some (str_of_accessor p.2.cfg.accessor)
                           linkify := false } forms (ffields p.1))
          else p)
        ++ (extra_columns.filter
            (fun p => (visible_column_fields base extra_columns forms).contains p.1)).map
          (fun p => (p.1, Column.formFields
            { p.2.cfg with accessor := some (str_of_accessor p.2.cfg.accessor)
                           linkify := false } forms (ffields p.1))) :=
  ⟨assigned_form_fields base extra_columns forms,
    get_table_class_spec base extra_columns forms hB hE hBE⟩

/-- Witness for C3 at the sample table class and formset class: `name` and
`price` (visible form fields) and the added `DELETE` column are replaced,
`sku` is untouched. -/
theorem C3_witness :
    ∃ ffields : String → Option (List String),
    (get_table_class sample_base_table sample_extra_columns sample_accessor).base_columns
      = sample_base_table.base_columns.map (fun p =>
          if (visible_column_fields sample_base_table sample_extra_columns sample_accessor).contains p.1
          then (p.1, Column.formFields
            { p.2.cfg with accessor := some (str_of_accessor p.2.cfg.accessor)
                           linkify := false } sample_accessor (ffields p.1))
          else p)
        ++ (sample_extra_columns.filter
            (fun p => (visible_column_fields sample_base_table sample_extra_columns sample_accessor).contains p.1)).map
          (fun p => (p.1, Column.formFields
            { p.2.cfg with accessor := some (str_of_accessor p.2.cfg.accessor)
                           linkify := false } sample_accessor (ffields p.1))) :=
  C3_get_table_class sample_base_table sample_extra_columns sample_accessor
    (by decide) (by decide) (by decide)

/-- C9: in every table class produced by `get_table_class`, the formset's
hidden form fields are attached to exactly one column - the first column (in
iteration order over base columns then extra columns) matching a visible form
field receives all hidden fields followed by its own name, and every other
replaced `FormFieldsColumn` receives `form_fields = None`, so it renders only
its own field and hidden fields are rendered at most once per row. -/
theorem C9_hidden_fields_once (base : TableClass)
    (extra_columns : List (String × Column)) (forms : FormAccessor)
    (hB : (base.base_columns.map Prod.fst).Nodup)
    (hE : (extra_columns.map Prod.fst).Nodup)
    (hBE : ∀ n ∈ extra_columns.map Prod.fst,
      n ∉ base.base_columns.map Prod.fst) :
    (∀ p : String × Column,
        (base.base_columns ++ extra_columns).find?
            (fun q => (visible_column_fields base extra_columns forms).contains q.1)
          = some p →
        alGet (get_table_class base extra_columns forms).base_columns p.1
            = some (FormFieldsColumn.from_column forms p.2
                (some (FormAccessor.hidden_fields forms ++ [p.1])))
          ∧ FormFieldsColumn.rendered_fields
              (some (FormAccessor.hidden_fields forms ++ [p.1])) p.1
              = FormAccessor.hidden_fields forms ++ [p.1])
  ∧ (∀ q ∈ base.base_columns ++ extra_columns,
        (visible_column_fields base extra_columns forms).contains q.1 = true →
        (base.base_columns ++ extra_columns).find?
            (fun r => (visible_column_fields base extra_columns forms).contains r.1)
          ≠ some q →
        alGet (get_table_class base extra_columns forms).base_columns q.1
            = some (FormFieldsColumn.from_column forms q.2 none)
          ∧ FormFieldsColumn.rendered_fields none q.1 = [q.1]) := by
  have hres := get_table_class_spec base extra_columns forms hB hE hBE
  have hchainkeys : ((base.base_columns ++ extra_columns).map Prod.fst).Nodup := by
    rw [List.map_append]
    exact List.Nodup.append hB hE (fun n hn1 hn2 => hBE n hn2 hn1)
  have hreskeys : (((base.base_columns.map (fun p =>
        if (visible_column_fields base extra_columns forms).contains p.1
        then (p.1, FormFieldsColumn.from_column forms p.2
          (assigned_form_fields base extra_columns forms p.1))
        else p))
      ++ (extra_columns.filter
          (fun p => (visible_column_fields base extra_columns forms).contains p.1)).map
        (fun p => (p.1, FormFieldsColumn.from_column forms p.2
          (assigned_form_fields base extra_columns forms p.1)))).map Prod.fst).Nodup := by
    rw [List.map_append]
    have hkB : (base.base_columns.map (fun p =>
          if (visible_column_fields base extra_columns forms).contains p.1
          then (p.1, FormFieldsColumn.from_column forms p.2
            (assigned_form_fields base extra_columns forms p.1))
          else p)).map Prod.fst = base.base_columns.map Prod.fst := by
      rw [List.map_map]
      apply List.map_congr_left
      intro p hp
      simp only [Function.comp_apply]
      split
      · rfl
      · rfl
    have hkE : ((extra_columns.filter
          (fun p => (visible_column_fields base extra_columns forms).contains p.1)).map
          (fun p => (p.1, FormFieldsColumn.from_column forms p.2
            (assigned_form_fields base extra_columns forms p.1)))).map Prod.fst
        = (extra_columns.filter
            (fun p => (visible_column_fields base extra_columns forms).contains p.1)).map
          Prod.fst := by
      rw [List.map_map]
      rfl
    rw [hkB, hkE]
    apply List.Nodup.append hB
      (List.Nodup.sublist (List.Sublist.map Prod.fst (List.filter_sublist _)) hE)
    intro n hn1 hn2
    rcases List.mem_map.mp hn2 with ⟨r, hr, rfl⟩
    exact hBE r.1 (List.mem_map_of_mem Prod.fst (List.mem_of_mem_filter hr)) hn1
  have hget : ∀ p : String × Column, p ∈ base.base_columns ++ extra_columns →
      (visible_column_fields base extra_columns forms).contains p.1 = true →
      alGet (get_table_class base extra_columns forms).base_columns p.1
        = some (FormFieldsColumn.from_column forms p.2
            (assigned_form_fields base extra_columns forms p.1)) := by
    intro p hpchain hvis
    rw [hres]
    apply alGet_eq_of_nodup_mem _ _ _ hreskeys
    rcases List.mem_append.mp hpchain with hpB | hpE
    · apply List.mem_append.mpr
      left
      have h1 : (if (visible_column_fields base extra_columns forms).contains p.1
          then (p.1, FormFieldsColumn.from_column forms p.2
            (assigned_form_fields base extra_columns forms p.1))
          else p) ∈ base.base_columns.map (fun p : String × Column =>
            if (visible_column_fields base extra_columns forms).contains p.1
            then (p.1, FormFieldsColumn.from_column forms p.2
              (assigned_form_fields base extra_columns forms p.1))
            else p) := List.mem_map_of_mem _ hpB
      rw [if_pos hvis] at h1
      exact h1
    · apply List.mem_append.mpr
      right
      exact List.mem_map_of_mem _ (List.mem_filter.mpr ⟨hpE, hvis⟩)
  constructor
  · intro p hfind
    have hpchain : p ∈ base.base_columns ++ extra_columns :=
      List.mem_of_find?_eq_some hfind
    have hvis : (visible_column_fields base extra_columns forms).contains p.1
        = true :=
      @List.find?_some (String × Column)
        (fun q => (visible_column_fields base extra_columns forms).contains q.1)
        p (base.base_columns ++ extra_columns) hfind
    have hassigned : assigned_form_fields base extra_columns forms p.1
        = some (FormAccessor.hidden_fields forms ++ [p.1]) := by
      unfold assigned_form_fields
      rw [hfind]
      simp
    refine ⟨?_, rfl⟩
    rw [hget p hpchain hvis, hassigned]
  · intro q hq hvq hneq
    have hfsome : (base.base_columns ++ extra_columns).find?
        (fun r => (visible_column_fields base extra_columns forms).contains r.1)
        ≠ none := by
      intro hnone
      exact (List.find?_eq_none.mp hnone q hq) hvq
    obtain ⟨p0, hfind0⟩ := Option.ne_none_iff_exists'.mp hfsome
    have hp0chain : p0 ∈ base.base_columns ++ extra_columns :=
      List.mem_of_find?_eq_some hfind0
    have hp0ne : p0 ≠ q := fun hc => hneq (hc ▸ hfind0)
    have hkeyne : p0.1 ≠ q.1 := by
      intro hc
      apply hp0ne
      have hgp0 : alGet (base.base_columns ++ extra_columns) p0.1 = some p0.2 :=
        alGet_eq_of_nodup_mem _ _ _ hchainkeys hp0chain
      have hgq : alGet (base.base_columns ++ extra_columns) q.1 = some q.2 :=
        alGet_eq_of_nodup_mem _ _ _ hchainkeys hq
      rw [hc] at hgp0
      rw [hgp0] at hgq
      have h2 : p0.2 = q.2 := Option.some.inj hgq
      exact Prod.ext hc h2
    have hassigned0 : assigned_form_fields base extra_columns forms q.1
        = none := by
      unfold assigned_form_fields
      rw [hfind0]
      rw [if_neg]
      simpa using hkeyne
    refine ⟨?_, rfl⟩
    rw [hget q hq hvq, hassigned0]

/-- Witness for C9 at the sample table/formset classes: the first visible
column `name` receives the hidden `id` field plus its own name, the later
visible column `price` receives `None` and renders only itself. -/
theorem C9_witness :
    alGet (get_table_class sample_base_table sample_extra_columns sample_accessor).base_columns
        "name"
        = some (FormFieldsColumn.from_column sample_accessor
            (Column.plain sample_config)
            (some (FormAccessor.hidden_fields sample_accessor ++ ["name"])))
  ∧ alGet (get_table_class sample_base_table sample_extra_columns sample_accessor).base_columns
        "price"
        = some (FormFieldsColumn.from_column sample_accessor
            (Column.plain sample_config) none)
  ∧ FormFieldsColumn.rendered_fields none "price" = ["price"] := by
  have h := C9_hidden_fields_once sample_base_table sample_extra_columns
    sample_accessor (by decide) (by decide) (by decide)
  refine ⟨?_, ?_, rfl⟩
  · exact (h.1 ("name", Column.plain sample_config) rfl).1
  · exact (h.2 ("price", Column.plain sample_config) (by decide) (by decide)
      (by decide)).1

/-- Witness for C10 at a concrete view with an empty cache: after the first
call builds the pair, a second call returns the identical result. -/
theorem C10_witness :
    (sample_view.get_formset_and_table).2.get_formset_and_table
      = sample_view.get_formset_and_table := by
  have h := C10_view_caching sample_view
    (sample_view.get_formset_and_table).1.1
    (sample_view.get_formset_and_table).1.2
    (sample_view.get_formset_and_table).2 rfl
  exact h.2.2.1

end Fmft
